import Mathlib

/-!
Shallow embedding of the Chem2048 game engine (src/periodic-table-2048.tsx).

The board is the row-major list of 16 cells; a cell is `none` (the JS `null`)
or `some` element symbol.  Scores are integers (JS numbers used additively).
The JS `Math.random()` spawn choice is modelled by an injected natural number
`r`: the spawned index is `emptySpots[r % emptySpots.length]`, ranging over
exactly the choices the code can make.
-/

abbrev Cell : Type := Option String

abbrev Board : Type := List Cell

/-- Progression of elements, `const ELEMENTS = ['H', 'C', 'O']` (line 5). -/
def ELEMENTS : List String := ["H", "C", "O"]

/-- JS `Array.prototype.indexOf` on `ELEMENTS`-like lists applied to a cell
value: `-1` for `null` or for a string not in the list (lines 46, 76). -/
def jsIndexOf (l : List String) (c : Cell) : Int :=
  match c with
  | none => -1
  | some s => if s ∈ l then (l.indexOf s : Int) else -1

/-- `getNextElement` (lines 45-48): the next symbol in the progression, or
`null` when `currentIndex` is already the last index. -/
def getNextElement (currentElement : Cell) : Cell :=
  let currentIndex := jsIndexOf ELEMENTS currentElement
  if currentIndex < (ELEMENTS.length : Int) - 1 then
    ELEMENTS.get? (currentIndex + 1).toNat
  else none

/-- One 90-degree clockwise rotation: `newBoard[i*4+j] = old[(3-j)*4+i]`
(lines 53-59), with `i = n / 4`, `j = n % 4` for flat index `n`. -/
def rotate1 (b : Board) : Board :=
  (List.range 16).map (fun n => b.getD ((3 - n % 4) * 4 + n / 4) none)

/-- `rotateBoard` (lines 50-62): `times` successive 90-degree rotations. -/
def rotateBoard (b : Board) (times : Nat) : Board :=
  match times with
  | 0 => b
  | t + 1 => rotate1 (rotateBoard b t)

/-- Score added by one merge, `ELEMENTS.indexOf(currentRow[i]) + 1` evaluated
at the freshly written merged value (line 76). -/
def mergeScore (v : Cell) : Int := jsIndexOf ELEMENTS v + 1

/-- The merge loop of `moveLeft` (lines 73-79) on one compacted row: the JS
`for` loop with `splice` — after a merge at `i` the index advances past the
freshly created tile, so it is never re-merged in the same pass. -/
def mergeRow : List Cell → List Cell × Int
  | [] => ([], 0)
  | [a] => ([a], 0)
  | a :: b :: rest =>
    if a = b then
      let v := getNextElement a
      let p := mergeRow rest
      (v :: p.1, mergeScore v + p.2)
    else
      let p := mergeRow (b :: rest)
      (a :: p.1, p.2)

/-- Right-padding with `null` back to width 4 (lines 82-84). -/
def padRow (m : List Cell) : List Cell := m ++ List.replicate (4 - m.length) none

/-- Row slice `board.slice(row*4, row*4+4)` (line 69). -/
def getRow (b : Board) (row : Nat) : List Cell := (b.drop (row * 4)).take 4

/-- One row of `moveLeft`: filter out `null`, run the merge loop, re-pad
(lines 69-84); returns the new row and the points gained. -/
def processRow (r : List Cell) : List Cell × Int :=
  let currentRow := r.filter (fun v => v ≠ none)
  let p := mergeRow currentRow
  (padRow p.1, p.2)

/-- `moveLeft` (lines 64-94): the four rows processed independently; returns
the new board together with `newScore = score + total points` as the source's
closure over the `score` state does. -/
def moveLeft (score : Int) (b : Board) : Board × Int :=
  let r0 := processRow (getRow b 0)
  let r1 := processRow (getRow b 1)
  let r2 := processRow (getRow b 2)
  let r3 := processRow (getRow b 3)
  (r0.1 ++ (r1.1 ++ (r2.1 ++ r3.1)), score + r0.2 + r1.2 + r2.2 + r3.2)

/-- Indices of the empty cells, `reduce`-built in source order (lines 20-21). -/
def emptySpots (b : Board) : List Nat :=
  (List.range b.length).filter (fun i => b.getD i none = none)

/-- `addRandomTile` (lines 19-30): place `ELEMENTS[0]` on the empty spot the
injected random choice `r` selects; unchanged board when no cell is empty. -/
def addRandomTile (r : Nat) (b : Board) : Board :=
  let es := emptySpots b
  if 0 < es.length then
    let randomSpot := es.getD (r % es.length) 0
    b.set randomSpot (ELEMENTS.get? 0)
  else b

/-- The game state triple the component holds (lines 15-17). -/
structure GameState where
  board : Board
  score : Int
  gameOver : Bool
deriving DecidableEq

/-- Rotation count for a direction, the `switch` of lines 100-105 and the
inline table of lines 127-129: right 2, up 1, down 3, anything else 0. -/
def rotCount (d : String) : Nat :=
  if d = "ArrowRight" then 2
  else if d = "ArrowUp" then 1
  else if d = "ArrowDown" then 3
  else 0

/-- Steps 1-2 of an orchestrated move (lines 99-112): rotate into left
orientation, run `moveLeft`, rotate back; an unrecognized direction falls
through to the pre-move board.  Returns `(finalBoard, newScore)`. -/
def finalBoardOf (score : Int) (b : Board) (d : String) : Board × Int :=
  let rotatedBoard := rotateBoard b (rotCount d)
  let moved := moveLeft score rotatedBoard
  let finalBoard :=
    if d = "ArrowLeft" then moved.1
    else if d = "ArrowRight" then rotateBoard moved.1 2
    else if d = "ArrowUp" then rotateBoard moved.1 3
    else if d = "ArrowDown" then rotateBoard moved.1 1
    else b
  (finalBoard, moved.2)

/-- The four direction keys probed for game over (line 123). -/
def DIRS : List String := ["ArrowLeft", "ArrowRight", "ArrowUp", "ArrowDown"]

/-- `move` (lines 96-139).  When the final board differs from the pre-move
board the new board (with spawned tile) and score are committed, and game
over is set when no probe direction's `moveLeft` output differs from the
post-spawn board — the source compares `testBoard` to `boardWithNewTile`
without rotating `testBoard` back (lines 125-132). -/
def move (r : Nat) (direction : String) (st : GameState) : GameState :=
  if st.gameOver then st
  else
    let fm := finalBoardOf st.score st.board direction
    if fm.1 ≠ st.board then
      let boardWithNewTile := addRandomTile r fm.1
      let availableMoves := DIRS.any (fun d =>
        decide ((moveLeft st.score (rotateBoard boardWithNewTile (rotCount d))).1 ≠ boardWithNewTile))
      { board := boardWithNewTile, score := fm.2,
        gameOver := if availableMoves then st.gameOver else true }
    else st

/-- Number of merges the merge loop performs on one compacted row; observer
of the loop of lines 73-79. -/
def mergeCount : List Cell → Nat
  | [] => 0
  | [_] => 0
  | a :: b :: rest =>
    if a = b then 1 + mergeCount rest
    else mergeCount (b :: rest)

/-- Total merges a `moveLeft` on `b` performs (sum over the four rows). -/
def moveLeftMergeCount (b : Board) : Nat :=
  mergeCount ((getRow b 0).filter (fun v => v ≠ none)) +
  mergeCount ((getRow b 1).filter (fun v => v ≠ none)) +
  mergeCount ((getRow b 2).filter (fun v => v ≠ none)) +
  mergeCount ((getRow b 3).filter (fun v => v ≠ none))

/-- Number of occupied cells of a board. -/
def countNonEmpty (b : Board) : Nat := (b.filter (fun v => v ≠ none)).length

theorem mergeScore_nonneg (v : Cell) : 0 ≤ mergeScore v := by
  cases v with
  | none => simp [mergeScore, jsIndexOf]
  | some s =>
    simp only [mergeScore, jsIndexOf]
    split
    · have := Int.natCast_nonneg (ELEMENTS.indexOf s)
      omega
    · omega

theorem mergeRow_points_nonneg : (l : List Cell) → 0 ≤ (mergeRow l).2
  | [] => by simp [mergeRow]
  | [a] => by simp [mergeRow]
  | a :: b :: rest => by
    simp only [mergeRow]
    split
    · have h1 := mergeRow_points_nonneg rest
      have h2 := mergeScore_nonneg (getNextElement a)
      simp only []
      omega
    · exact mergeRow_points_nonneg (b :: rest)

theorem mergeRow_points_zero : (l : List Cell) → mergeCount l = 0 → (mergeRow l).2 = 0
  | [], _ => rfl
  | [a], _ => rfl
  | a :: b :: rest, h => by
    by_cases hab : a = b
    · simp [mergeCount, hab] at h
    · have hz : mergeCount (b :: rest) = 0 := by simpa [mergeCount, hab] using h
      have := mergeRow_points_zero (b :: rest) hz
      simp only [mergeRow, if_neg hab]
      exact this

theorem mergeRow_length_le : (l : List Cell) → (mergeRow l).1.length ≤ l.length
  | [] => by simp [mergeRow]
  | [a] => by simp [mergeRow]
  | a :: b :: rest => by
    simp only [mergeRow]
    split
    · have := mergeRow_length_le rest
      simp only [List.length_cons]
      omega
    · have := mergeRow_length_le (b :: rest)
      simp only [List.length_cons] at this ⊢
      omega

theorem padRow_length (m : List Cell) (h : m.length ≤ 4) : (padRow m).length = 4 := by
  simp only [padRow, List.length_append, List.length_replicate]
  omega

theorem getRow_length_le (b : Board) (i : Nat) : (getRow b i).length ≤ 4 := by
  simp only [getRow, List.length_take]
  omega

theorem processRow_fst_length (r : List Cell) (h : r.length ≤ 4) :
    (processRow r).1.length = 4 := by
  simp only [processRow]
  apply padRow_length
  calc (mergeRow (r.filter (fun v => v ≠ none))).1.length
      ≤ (r.filter (fun v => v ≠ none)).length := mergeRow_length_le _
    _ ≤ r.length := List.length_filter_le _ _
    _ ≤ 4 := h

theorem moveLeft_fst_length (s : Int) (b : Board) : (moveLeft s b).1.length = 16 := by
  show ((processRow (getRow b 0)).1 ++ ((processRow (getRow b 1)).1 ++
    ((processRow (getRow b 2)).1 ++ (processRow (getRow b 3)).1))).length = 16
  rw [List.length_append, List.length_append, List.length_append,
    processRow_fst_length _ (getRow_length_le b 0),
    processRow_fst_length _ (getRow_length_le b 1),
    processRow_fst_length _ (getRow_length_le b 2),
    processRow_fst_length _ (getRow_length_le b 3)]

theorem rotate1_length (b : Board) : (rotate1 b).length = 16 := by
  simp [rotate1]

theorem rotateBoard_length (b : Board) (t : Nat) (h : b.length = 16) :
    (rotateBoard b t).length = 16 := by
  cases t with
  | zero => exact h
  | succ n => exact rotate1_length _

theorem addRandomTile_length (r : Nat) (b : Board) :
    (addRandomTile r b).length = b.length := by
  simp only [addRandomTile]
  split
  · exact List.length_set ..
  · rfl

theorem finalBoardOf_fst_length (s : Int) (b : Board) (d : String)
    (h : b.length = 16) : (finalBoardOf s b d).1.length = 16 := by
  simp only [finalBoardOf]
  split
  · exact moveLeft_fst_length ..
  split
  · exact rotate1_length _
  split
  · exact rotate1_length _
  split
  · exact rotate1_length _
  · exact h

theorem move_eq_of_final_eq (r : Nat) (d : String) (st : GameState)
    (h : (finalBoardOf st.score st.board d).1 = st.board) : move r d st = st := by
  simp only [move]
  split
  · rfl
  · rw [if_neg]
    simp [h]

theorem move_score_eq (r : Nat) (d : String) (st : GameState) :
    (move r d st).score = st.score ∨
    (move r d st).score = (moveLeft st.score (rotateBoard st.board (rotCount d))).2 := by
  simp only [move]
  split
  · exact Or.inl rfl
  · split
    · exact Or.inr rfl
    · exact Or.inl rfl

theorem moveLeft_score_lower (s : Int) (b : Board) : s ≤ (moveLeft s b).2 := by
  show s ≤ s + (processRow (getRow b 0)).2 + (processRow (getRow b 1)).2 +
    (processRow (getRow b 2)).2 + (processRow (getRow b 3)).2
  have h0 : 0 ≤ (processRow (getRow b 0)).2 := mergeRow_points_nonneg _
  have h1 : 0 ≤ (processRow (getRow b 1)).2 := mergeRow_points_nonneg _
  have h2 : 0 ≤ (processRow (getRow b 2)).2 := mergeRow_points_nonneg _
  have h3 : 0 ≤ (processRow (getRow b 3)).2 := mergeRow_points_nonneg _
  omega

theorem moveLeft_score_of_no_merge (s : Int) (b : Board)
    (h : moveLeftMergeCount b = 0) : (moveLeft s b).2 = s := by
  simp only [moveLeftMergeCount] at h
  have e : (moveLeft s b).2 =
      s + (mergeRow ((getRow b 0).filter (fun v => v ≠ none))).2 +
      (mergeRow ((getRow b 1).filter (fun v => v ≠ none))).2 +
      (mergeRow ((getRow b 2).filter (fun v => v ≠ none))).2 +
      (mergeRow ((getRow b 3).filter (fun v => v ≠ none))).2 := rfl
  have z0 : (mergeRow ((getRow b 0).filter (fun v => v ≠ none))).2 = 0 :=
    mergeRow_points_zero _ (by omega)
  have z1 : (mergeRow ((getRow b 1).filter (fun v => v ≠ none))).2 = 0 :=
    mergeRow_points_zero _ (by omega)
  have z2 : (mergeRow ((getRow b 2).filter (fun v => v ≠ none))).2 = 0 :=
    mergeRow_points_zero _ (by omega)
  have z3 : (mergeRow ((getRow b 3).filter (fun v => v ≠ none))).2 = 0 :=
    mergeRow_points_zero _ (by omega)
  rw [e, z0, z1, z2, z3]
  omega

theorem board_sixteen_cells (b : Board) (h : b.length = 16) :
    ∃ a0 a1 a2 a3 a4 a5 a6 a7 a8 a9 a10 a11 a12 a13 a14 a15 : Cell,
      b = [a0, a1, a2, a3, a4, a5, a6, a7, a8, a9, a10, a11, a12, a13, a14, a15] := by
  rcases b with _ | ⟨a0, b⟩
  · simp at h
  rcases b with _ | ⟨a1, b⟩
  · simp at h
  rcases b with _ | ⟨a2, b⟩
  · simp at h
  rcases b with _ | ⟨a3, b⟩
  · simp at h
  rcases b with _ | ⟨a4, b⟩
  · simp at h
  rcases b with _ | ⟨a5, b⟩
  · simp at h
  rcases b with _ | ⟨a6, b⟩
  · simp at h
  rcases b with _ | ⟨a7, b⟩
  · simp at h
  rcases b with _ | ⟨a8, b⟩
  · simp at h
  rcases b with _ | ⟨a9, b⟩
  · simp at h
  rcases b with _ | ⟨a10, b⟩
  · simp at h
  rcases b with _ | ⟨a11, b⟩
  · simp at h
  rcases b with _ | ⟨a12, b⟩
  · simp at h
  rcases b with _ | ⟨a13, b⟩
  · simp at h
  rcases b with _ | ⟨a14, b⟩
  · simp at h
  rcases b with _ | ⟨a15, b⟩
  · simp at h
  rcases b with _ | ⟨a16, b⟩
  · exact ⟨a0, a1, a2, a3, a4, a5, a6, a7, a8, a9, a10, a11, a12, a13, a14, a15, rfl⟩
  · simp only [List.length_cons] at h
    omega

/-- C7: for every 16-cell board `B`, `rotateBoard (rotateBoard B 1) 3 = B` and
`rotateBoard B 4 = B`: a full circle of four 90-degree clockwise rotations is
the identity. -/
theorem rotate_identities (b : Board) (h : b.length = 16) :
    rotateBoard (rotateBoard b 1) 3 = b ∧ rotateBoard b 4 = b := by
  obtain ⟨a0, a1, a2, a3, a4, a5, a6, a7, a8, a9, a10, a11, a12, a13, a14, a15, rfl⟩ :=
    board_sixteen_cells b h
  exact ⟨rfl, rfl⟩

/-- C7 witness: the rotation identities evaluated on the empty board. -/
theorem rotate_identities_witness :
    rotateBoard (rotateBoard (List.replicate 16 (none : Cell)) 1) 3 =
      List.replicate 16 (none : Cell) ∧
    rotateBoard (List.replicate 16 (none : Cell)) 4 = List.replicate 16 (none : Cell) :=
  rotate_identities (List.replicate 16 none) (by simp)

theorem move_board_length (r : Nat) (d : String) (st : GameState)
    (h : st.board.length = 16) : (move r d st).board.length = 16 := by
  simp only [move]
  split
  · exact h
  · split
    · show (addRandomTile r (finalBoardOf st.score st.board d).1).length = 16
      rw [addRandomTile_length]
      exact finalBoardOf_fst_length _ _ _ h
    · exact h

/-- C8: every board operation — `rotateBoard` for any rotation count,
`moveLeft`, `addRandomTile`, and `move` (accepted or rejected) — returns a
board of length exactly 16 when its input board has length 16. -/
theorem board_length_invariant (b : Board) (t : Nat) (s : Int) (r r2 : Nat)
    (d : String) (st : GameState) (hb : b.length = 16) (hst : st.board.length = 16) :
    (rotateBoard b t).length = 16 ∧ (moveLeft s b).1.length = 16 ∧
    (addRandomTile r b).length = 16 ∧ (move r2 d st).board.length = 16 :=
  ⟨rotateBoard_length b t hb, moveLeft_fst_length s b,
    by rw [addRandomTile_length]; exact hb, move_board_length r2 d st hst⟩

/-- C8 witness: the length invariant evaluated on a concrete 16-cell board
and state. -/
theorem board_length_invariant_witness :
    (rotateBoard (List.replicate 16 (none : Cell)) 3).length = 16 ∧
    (moveLeft 0 (List.replicate 16 (none : Cell))).1.length = 16 ∧
    (addRandomTile 5 (List.replicate 16 (none : Cell))).length = 16 ∧
    (move 0 "ArrowLeft" ⟨List.replicate 16 (none : Cell), 0, false⟩).board.length = 16 :=
  board_length_invariant (List.replicate 16 none) 3 0 5 0 "ArrowLeft"
    ⟨List.replicate 16 none, 0, false⟩ (by simp) (by simp)

/-- C4: for every state and direction, if the board produced by
rotate / `moveLeft` / rotate-back equals the pre-move board cell by cell,
then `move` is a true no-op: the returned state (board, score, game-over
flag) is the input state, so no tile is spawned and no game-over probe
result is committed. -/
theorem move_noop_when_unchanged (r : Nat) (d : String) (st : GameState)
    (h : (finalBoardOf st.score st.board d).1 = st.board) : move r d st = st :=
  move_eq_of_final_eq r d st h

/-- C4 witness: a single tile already flush left makes a left move
ineffective, and `move` returns the state unchanged. -/
theorem move_noop_when_unchanged_witness :
    (finalBoardOf 0 (some "H" :: List.replicate 15 (none : Cell)) "ArrowLeft").1 =
      some "H" :: List.replicate 15 (none : Cell) ∧
    move 7 "ArrowLeft" ⟨some "H" :: List.replicate 15 (none : Cell), 0, false⟩ =
      ⟨some "H" :: List.replicate 15 (none : Cell), 0, false⟩ :=
  ⟨by decide, move_noop_when_unchanged 7 "ArrowLeft"
    ⟨some "H" :: List.replicate 15 (none : Cell), 0, false⟩ (by decide)⟩

/-- C9: calling `move` with a direction other than the four arrow keys is a
no-op: the state comes back unchanged (no spawn, no score change, no
game-over change), and the operation is total, so no fault is raised. -/
theorem unknown_direction_noop (r : Nat) (d : String) (st : GameState)
    (h1 : d ≠ "ArrowLeft") (h2 : d ≠ "ArrowRight") (h3 : d ≠ "ArrowUp")
    (h4 : d ≠ "ArrowDown") : move r d st = st := by
  apply move_eq_of_final_eq
  simp [finalBoardOf, h1, h2, h3, h4]

/-- C9 witness: the direction string "x" leaves a concrete state unchanged. -/
theorem unknown_direction_noop_witness :
    move 3 "x" ⟨some "H" :: some "H" :: List.replicate 14 (none : Cell), 5, false⟩ =
      ⟨some "H" :: some "H" :: List.replicate 14 (none : Cell), 5, false⟩ :=
  unknown_direction_noop 3 "x"
    ⟨some "H" :: some "H" :: List.replicate 14 (none : Cell), 5, false⟩
    (by decide) (by decide) (by decide) (by decide)

/-- C10: on any cell value outside the progression — `null` or a symbol not
among H, C, O — `getNextElement` returns `some "H"` (index `-1 + 1 = 0` of
the progression), not the "no further element" signal. -/
theorem getNextElement_fallback_H (c : Cell) (h1 : c ≠ some "H")
    (h2 : c ≠ some "C") (h3 : c ≠ some "O") : getNextElement c = some "H" := by
  cases c with
  | none => rfl
  | some s =>
    have hs : s ∉ ELEMENTS := by
      intro hm
      simp only [ELEMENTS, List.mem_cons, List.mem_singleton] at hm
      rcases hm with rfl | rfl | (rfl | hf)
      · exact h1 rfl
      · exact h2 rfl
      · exact h3 rfl
      · simp at hf
    simp only [getNextElement, jsIndexOf, if_neg hs]
    decide

/-- C10 witness: the fallback evaluated at the unlisted symbol "Xe" and at
the empty cell. -/
theorem getNextElement_fallback_H_witness :
    getNextElement (some "Xe") = some "H" :=
  getNextElement_fallback_H (some "Xe") (by decide) (by decide) (by decide)

/-- Row 0 holds H,H,H,empty and the other rows are empty; the C5 scenario
board. -/
def bHHH : Board := [some "H", some "H", some "H", none] ++ List.replicate 12 none

/-- C5: on a row `[H,H,H,empty]`, `moveLeft` merges the leftmost pair only:
the row becomes `[C,H,empty,empty]`, and for every starting score `s` the
returned score is exactly `s + 2`; the fresh C is not re-merged with the
trailing H in the same pass. -/
theorem row_HHH_single_pass (s : Int) :
    moveLeft s bHHH = ([some "C", some "H", none, none] ++ List.replicate 12 none, s + 2) := by
  have h : moveLeft s bHHH =
      ([some "C", some "H", none, none] ++ List.replicate 12 none, s + 2 + 0 + 0 + 0) := rfl
  rw [h]
  norm_num

/-- C6: the score never decreases — neither through the `moveLeft` primitive
nor through a full `move` — and a `move` strictly increases the committed
score only if the merge loop performed at least one merge on the rotated
board it processed. -/
theorem score_monotone_merge_only (s : Int) (b : Board) (r : Nat) (d : String)
    (st : GameState) :
    s ≤ (moveLeft s b).2 ∧ st.score ≤ (move r d st).score ∧
    (st.score < (move r d st).score →
      0 < moveLeftMergeCount (rotateBoard st.board (rotCount d))) := by
  refine ⟨moveLeft_score_lower s b, ?_, ?_⟩
  · rcases move_score_eq r d st with h | h
    · rw [h]
    · rw [h]
      exact moveLeft_score_lower _ _
  · intro hlt
    by_contra h0
    have hz : moveLeftMergeCount (rotateBoard st.board (rotCount d)) = 0 := by omega
    have he := moveLeft_score_of_no_merge st.score _ hz
    rcases move_score_eq r d st with h | h
    · rw [h] at hlt
      exact lt_irrefl _ hlt
    · rw [h, he] at hlt
      exact lt_irrefl _ hlt

/-- C6 witness: a board whose first row is H,H gains score 2 on a left move,
and the merge counter of the processed board is positive. -/
theorem score_monotone_merge_only_witness :
    (0 : Int) ≤ (moveLeft 0 (some "H" :: some "H" :: List.replicate 14 (none : Cell))).2 ∧
    (0 : Int) ≤ (move 0 "ArrowLeft"
      ⟨some "H" :: some "H" :: List.replicate 14 (none : Cell), 0, false⟩).score ∧
    0 < moveLeftMergeCount (rotateBoard
      (some "H" :: some "H" :: List.replicate 14 (none : Cell)) (rotCount "ArrowLeft")) := by
  have h := score_monotone_merge_only 0
    (some "H" :: some "H" :: List.replicate 14 (none : Cell)) 0 "ArrowLeft"
    ⟨some "H" :: some "H" :: List.replicate 14 (none : Cell), 0, false⟩
  exact ⟨h.1, h.2.1, h.2.2 (by decide)⟩

/-- A board whose first row merges two O tiles: the C2 failing input. -/
def bOO : Board := [some "O", some "O", none, none] ++ List.replicate 12 none

/-- C2: refuted on the code.  `getNextElement` does signal "no merge target"
for O (`none`), but the merge loop still treats the two adjacent equal O
tiles as mergeable: it writes that `none` into the row and splices the
second O out, so both O tiles vanish (the whole board becomes empty) with
score unchanged, instead of both staying in place. -/
theorem double_O_merge_vanishes :
    getNextElement (some "O") = none ∧
    moveLeft 0 bOO = (List.replicate 16 none, 0) ∧
    countNonEmpty (moveLeft 0 bOO).1 = 0 := by
  refine ⟨rfl, ?_, ?_⟩ <;> decide

/-- The C3 failing state: score 0, not game over, board `bOO`. -/
def stOO : GameState := ⟨bOO, 0, false⟩

/-- C3: refuted on the code.  On the accepted left move from `bOO` the board
changes, one merge is performed, and a tile is spawned, so the claim
predicts `2 - 1 + 1 = 2` occupied cells afterwards; the code leaves exactly
1, because the O,O merge destroys both tiles instead of consuming one. -/
theorem tile_conservation_violated :
    (move 0 "ArrowLeft" stOO).board ≠ stOO.board ∧
    countNonEmpty stOO.board = 2 ∧
    moveLeftMergeCount (rotateBoard stOO.board (rotCount "ArrowLeft")) = 1 ∧
    countNonEmpty (move 0 "ArrowLeft" stOO).board = 1 ∧
    countNonEmpty (move 0 "ArrowLeft" stOO).board ≠
      countNonEmpty stOO.board - moveLeftMergeCount stOO.board + 1 := by
  refine ⟨?_, ?_, ?_, ?_, ?_⟩ <;> decide

/-- Pre-move board of the C1 failing run: full checkerboard of C and H with
one O in the corner, except that row 0 is `C,H,empty,C`, so a left move
compacts row 0 and is accepted. -/
def bC1pre : Board :=
  [some "C", some "H", none, some "C",
   some "H", some "C", some "H", some "C",
   some "C", some "H", some "C", some "H",
   some "H", some "C", some "H", some "O"]

/-- The C1 failing state: score 0, not game over, board `bC1pre`. -/
def stC1 : GameState := ⟨bC1pre, 0, false⟩

/-- The state after the accepted left move from `stC1`; the single empty
cell left by the compaction receives the spawned H, so the post-spawn board
is determined. -/
def stC1post : GameState := move 0 "ArrowLeft" stC1

/-- C1: refuted on the code.  The left move from `stC1` is accepted and the
post-spawn board is full with no adjacent equal pair in any direction: every
one of the four rotate / `moveLeft` / rotate-back simulations returns the
post-spawn board unchanged, so the claim requires GameOver = true.  The code
compares each simulated board to the post-spawn board without rotating it
back, sees the rotated boards differ, and leaves GameOver = false. -/
theorem gameOver_probe_mismatch :
    stC1post.board ≠ stC1.board ∧
    (finalBoardOf stC1post.score stC1post.board "ArrowLeft").1 = stC1post.board ∧
    (finalBoardOf stC1post.score stC1post.board "ArrowRight").1 = stC1post.board ∧
    (finalBoardOf stC1post.score stC1post.board "ArrowUp").1 = stC1post.board ∧
    (finalBoardOf stC1post.score stC1post.board "ArrowDown").1 = stC1post.board ∧
    stC1post.gameOver = false := by
  refine ⟨?_, ?_, ?_, ?_, ?_, ?_⟩ <;> decide
